import Mathlib

/-!
Shallow embedding of the penpot render-wasm shape core
(`src/render-wasm/src/shapes.rs` and `src/render-wasm/src/shapes/bools.rs`).

Machine floats (`f32`) are modelled as exact rationals `ℚ`: every operation
the claims touch (store, add, multiply, divide, compare with zero) is
algebraic, and the spec's statements are algebraic identities.

Types that live in sibling modules not shown in the source tree
(`math::Rect`, `matrix.rs`, `paths.rs`, `fills.rs`, `strokes.rs`,
`skia::Matrix`, `BlendMode`, `Uuid`) are modelled from the spec; each such
definition carries a doc comment starting with `Modelled from the spec:`.
-/

namespace Penpot

/-- `f32` scalars modelled as exact rationals. -/
abbrev Scalar := ℚ

/-- Modelled from the spec: `Uuid` is an "opaque unique identifier". -/
abbrev Uuid := Nat

/-- Modelled from the spec: colors are "fixed-width packed RGBA" words. -/
abbrev Color := Nat

/-- Modelled from the spec: `math::Rect` is an axis-aligned box, as used by
`selrect` ("axis-aligned bounding box"); ltrb layout follows skia's Rect. -/
structure Rect where
  left : Scalar
  top : Scalar
  right : Scalar
  bottom : Scalar
deriving DecidableEq, Repr

/-- Modelled from the spec: the default/empty box used by `Shape::new`
("default/empty geometry"). -/
def Rect.new_empty : Rect := ⟨0, 0, 0, 0⟩

/-- Modelled from the spec: `set_ltrb` rewrites all four bounds
(`set_selrect` "rewrites the bounding box"). -/
def Rect.set_ltrb (_r : Rect) (left top right bottom : Scalar) : Rect :=
  ⟨left, top, right, bottom⟩

/-- Modelled from the spec: "center point of the shape's bounds", the
midpoint of the box (skia's `Rect::center`). -/
def Rect.center (r : Rect) : Scalar × Scalar :=
  ((r.left + r.right) / 2, (r.top + r.bottom) / 2)

/-- Modelled from the spec: `Matrix` is the "standard 6-parameter affine
`(a,b,c,d,e,f)`" mapping `(x,y) ↦ (a·x + c·y + e, b·x + d·y + f)`. -/
structure Matrix where
  a : Scalar
  b : Scalar
  c : Scalar
  d : Scalar
  e : Scalar
  f : Scalar
deriving DecidableEq, Repr

/-- Modelled from the spec: constructor from the six affine parameters. -/
def Matrix.new (a b c d e f : Scalar) : Matrix := ⟨a, b, c, d, e, f⟩

/-- Modelled from the spec: the identity transform (`Shape::new` installs
"the identity transform"). -/
def Matrix.identity : Matrix := ⟨1, 0, 0, 1, 0, 0⟩

/-- Modelled from the spec: "remove translation" decomposition helper —
`transform` "with its translation component stripped (rotation+scale+skew
only)": zero the `e`/`f` entries. -/
def Matrix.no_translation (m : Matrix) : Matrix := ⟨m.a, m.b, m.c, m.d, 0, 0⟩

/-- Modelled from the spec: `skia::Matrix` restricted to the affine part used
here; row-major entries of the 2×3 affine block, mapping
`(x,y) ↦ (scaleX·x + skewX·y + transX, skewY·x + scaleY·y + transY)`. -/
structure SkMatrix where
  scaleX : Scalar
  skewX : Scalar
  transX : Scalar
  skewY : Scalar
  scaleY : Scalar
  transY : Scalar
deriving DecidableEq, Repr

/-- Modelled from the spec: skia's identity matrix. -/
def SkMatrix.new_identity : SkMatrix := ⟨1, 0, 0, 0, 1, 0⟩

/-- Modelled from the spec: apply the affine map to a point. -/
def SkMatrix.map (m : SkMatrix) (p : Scalar × Scalar) : Scalar × Scalar :=
  (m.scaleX * p.1 + m.skewX * p.2 + m.transX,
   m.skewY * p.1 + m.scaleY * p.2 + m.transY)

/-- Modelled from the spec: matrix composition `m ∘ n` (apply `n` first). -/
def SkMatrix.concat (m n : SkMatrix) : SkMatrix :=
  ⟨m.scaleX * n.scaleX + m.skewX * n.skewY,
   m.scaleX * n.skewX + m.skewX * n.scaleY,
   m.scaleX * n.transX + m.skewX * n.transY + m.transX,
   m.skewY * n.scaleX + m.scaleY * n.skewY,
   m.skewY * n.skewX + m.scaleY * n.scaleY,
   m.skewY * n.transX + m.scaleY * n.transY + m.transY⟩

/-- Modelled from the spec: skia `pre_concat` — `self := self ∘ other`. -/
def SkMatrix.pre_concat (m other : SkMatrix) : SkMatrix := m.concat other

/-- Modelled from the spec: a pure translation matrix. -/
def SkMatrix.translate (v : Scalar × Scalar) : SkMatrix :=
  ⟨1, 0, v.1, 0, 1, v.2⟩

/-- Modelled from the spec: skia `pre_translate` — pre-compose with a
translation. -/
def SkMatrix.pre_translate (m : SkMatrix) (v : Scalar × Scalar) : SkMatrix :=
  m.concat (SkMatrix.translate v)

/-- Determinant of the linear part, deciding invertibility. -/
def SkMatrix.det (m : SkMatrix) : Scalar :=
  m.scaleX * m.scaleY - m.skewX * m.skewY

/-- Modelled from the spec: skia `invert` — `none` exactly when the matrix
"is singular" ("Fails ... if that stripped transform is singular"),
otherwise the affine inverse. -/
def SkMatrix.invert (m : SkMatrix) : Option SkMatrix :=
  if m.det = 0 then none
  else
    some ⟨m.scaleY / m.det, -m.skewX / m.det,
          (m.skewX * m.transY - m.scaleY * m.transX) / m.det,
          -m.skewY / m.det, m.scaleX / m.det,
          (m.skewY * m.transX - m.scaleX * m.transY) / m.det⟩

/-- Modelled from the spec: `to_skia_matrix` reinterprets the 6-parameter
affine `(a,b,c,d,e,f)` in skia's row-major layout. -/
def Matrix.to_skia_matrix (m : Matrix) : SkMatrix :=
  ⟨m.a, m.c, m.e, m.b, m.d, m.f⟩

/-- `BoolType` from `src/render-wasm/src/shapes/bools.rs`: the four path
combination operators. -/
inductive BoolType
  | Union
  | Difference
  | Intersection
  | Exclusion
deriving DecidableEq, Repr

/-- `Default for BoolType` from `bools.rs`: `Union`. -/
def BoolType.default : BoolType := .Union

/-- `From<u8> for BoolType` from `bools.rs`: 0–3 decode to the four
operators, anything else to the default. The `u8` argument is a `Nat`;
the Rust `match` treats every value other than 0,1,2,3 by the wildcard. -/
def BoolType.from (value : Nat) : BoolType :=
  match value with
  | 0 => .Union
  | 1 => .Difference
  | 2 => .Intersection
  | 3 => .Exclusion
  | _ => BoolType.default

/-- Modelled from the spec: one path drawing command — "ordered sequence of
drawing commands (move/line/curve/close)" with point payloads. -/
inductive Segment
  | moveTo (p : Scalar × Scalar)
  | lineTo (p : Scalar × Scalar)
  | curveTo (c1 c2 p : Scalar × Scalar)
  | close
deriving DecidableEq, Repr

/-- Modelled from the spec: a `Path` is an "ordered sequence of drawing
commands"; "equality is structural". -/
structure Path where
  segments : List Segment
deriving DecidableEq, Repr

/-- Modelled from the spec: the "default/empty state" of a path. -/
def Path.default : Path := ⟨[]⟩

/-- Modelled from the spec: one "fixed-size path-segment record (command tag
+ coordinate payload)" of the external flat buffer. -/
structure RawPathData where
  tag : Nat
  c1 : Scalar × Scalar
  c2 : Scalar × Scalar
  p : Scalar × Scalar
deriving DecidableEq, Repr

/-- Modelled from the spec: decode one record; "invalid command tags" fail
with a parse-error condition. Tags 1–4 are move/line/curve/close. -/
def Segment.tryFrom (r : RawPathData) : Except String Segment :=
  match r.tag with
  | 1 => .ok (.moveTo r.p)
  | 2 => .ok (.lineTo r.p)
  | 3 => .ok (.curveTo r.c1 r.c2 r.p)
  | 4 => .ok .close
  | _ => .error "Invalid path data"

/-- Modelled from the spec: `Path::try_from(buffer)` decodes the whole
buffer; "malformed records fail the whole decode (no partial path is
installed)". -/
def Path.tryFrom (buffer : List RawPathData) : Except String Path :=
  (buffer.mapM Segment.tryFrom).map Path.mk

/-- Modelled from the spec: a gradient "owns an ordered, append-only list of
stops, each `(color, offset)`". -/
structure Gradient where
  stops : List (Color × Scalar)
deriving DecidableEq, Repr

/-- Modelled from the spec: `add_stop` appends one `(color, offset)` stop;
"no dedup or sort is performed — insertion order is preserved". -/
def Gradient.add_stop (g : Gradient) (color : Color) (offset : Scalar) :
    Gradient :=
  ⟨g.stops ++ [(color, offset)]⟩

/-- `Fill` as used by `shapes.rs`; modelled from the spec: "tagged union:
`Solid(color)`, `LinearGradient(gradient)`, `RadialGradient(gradient)`". -/
inductive Fill
  | Solid (color : Color)
  | LinearGradient (g : Gradient)
  | RadialGradient (g : Gradient)
deriving DecidableEq, Repr

/-- Modelled from the spec: a fixed-size stop record
"(`offset: f32`, `color: packed RGBA`)". -/
structure RawStopData where
  rawColor : Color
  rawOffset : Scalar
deriving DecidableEq, Repr

/-- Modelled from the spec: "`RawStopData` → `(color, offset)` extraction is
a pure, total conversion" — the color accessor. -/
def RawStopData.color (r : RawStopData) : Color := r.rawColor

/-- Modelled from the spec: the offset accessor, total. -/
def RawStopData.offset (r : RawStopData) : Scalar := r.rawOffset

/-- Modelled from the spec: a `Stroke` carries "geometry-affecting
parameters (width, …) plus one `Fill` used to paint it". -/
structure Stroke where
  fill : Fill
  width : Scalar
deriving DecidableEq, Repr

/-- Modelled from the spec: `BlendMode` is a "compositing mode, defaulted";
the default is source-over. -/
inductive BlendMode
  | SrcOver
  | Other (code : Nat)
deriving DecidableEq, Repr

/-- Modelled from the spec: the default blend mode. -/
def BlendMode.default : BlendMode := .SrcOver

/-- `Kind` from `shapes.rs`: the geometry variant of a shape. -/
inductive Kind
  | Rect (r : Rect)
  | Circle (r : Rect)
  | Path (p : Path)
  | Bool (op : BoolType) (p : Path)
deriving DecidableEq, Repr

/-- `Shape` from `shapes.rs`: the aggregate scene-graph entity. -/
structure Shape where
  id : Uuid
  children : List Uuid
  kind : Kind
  selrect : Rect
  transform : Matrix
  rotation : Scalar
  clip_content : Bool
  fills : List Fill
  strokes : List Stroke
  blend_mode : BlendMode
  opacity : Scalar
  hidden : Bool
deriving DecidableEq, Repr

/-- `Shape::new(id)` from `shapes.rs`: identifier plus default/empty
fields. -/
def Shape.new (id : Uuid) : Shape :=
  { id := id
    children := []
    kind := Kind.Rect Rect.new_empty
    selrect := Rect.new_empty
    transform := Matrix.identity
    rotation := 0
    clip_content := true
    fills := []
    strokes := []
    blend_mode := BlendMode.default
    opacity := 1
    hidden := false }

/-- `Shape::kind()` from `shapes.rs`: a value copy of the current kind. -/
def Shape.kindAcc (s : Shape) : Kind := s.kind

/-- `Shape::set_kind(kind)` from `shapes.rs`: replace the kind wholesale. -/
def Shape.set_kind (s : Shape) (kind : Kind) : Shape := { s with kind := kind }

/-- `Shape::set_transform(a,b,c,d,e,f)` from `shapes.rs`. -/
def Shape.set_transform (s : Shape) (a b c d e f : Scalar) : Shape :=
  { s with transform := Matrix.new a b c d e f }

/-- `Shape::set_selrect` from `shapes.rs`: rewrite `selrect`, and for the
`Rect`/`Circle` variants mirror the new box into the kind. -/
def Shape.set_selrect (s : Shape) (left top right bottom : Scalar) : Shape :=
  let selrect := s.selrect.set_ltrb left top right bottom
  let kind :=
    match s.kind with
    | Kind.Rect _ => Kind.Rect selrect
    | Kind.Circle _ => Kind.Circle selrect
    | k => k
  { s with selrect := selrect, kind := kind }

/-- Replace the last element of a list (the effect of mutating through
Rust's `last_mut`); the empty-list case is never reached by callers. -/
def setLast {α : Type} (l : List α) (x : α) : List α :=
  l.dropLast ++ [x]

/-- Fold of `Gradient::add_stop` over a stop buffer, as the `for` loop in
`add_fill_gradient_stops` / `add_stroke_gradient_stops` performs. -/
def Gradient.add_stops (g : Gradient) (buffer : List RawStopData) : Gradient :=
  buffer.foldl (fun g stop => g.add_stop stop.color stop.offset) g

/-- `Shape::add_fill(f)` from `shapes.rs`: push a fill. -/
def Shape.add_fill (s : Shape) (f : Fill) : Shape :=
  { s with fills := s.fills ++ [f] }

/-- `Shape::add_stroke(s)` from `shapes.rs`: push a stroke. -/
def Shape.add_stroke (s : Shape) (st : Stroke) : Shape :=
  { s with strokes := s.strokes ++ [st] }

/-- `Shape::add_fill_gradient_stops` from `shapes.rs`. Fallible mutators on
`&mut self` are embedded as state-passing: the result pairs the shape after
the call with the `Result<(), String>` value; early `?` returns carry the
state at that point. -/
def Shape.add_fill_gradient_stops (s : Shape) (buffer : List RawStopData) :
    Shape × Except String Unit :=
  match s.fills.getLast? with
  | none => (s, .error "Shape has no fills")
  | some fill =>
    match fill with
    | Fill.LinearGradient g =>
        ({ s with fills := setLast s.fills (Fill.LinearGradient (g.add_stops buffer)) },
         .ok ())
    | Fill.RadialGradient g =>
        ({ s with fills := setLast s.fills (Fill.RadialGradient (g.add_stops buffer)) },
         .ok ())
    | _ => (s, .error "Active fill is not a gradient")

/-- `Shape::set_stroke_fill` from `shapes.rs`: replace the paint of the last
stroke; error when no stroke exists. -/
def Shape.set_stroke_fill (s : Shape) (f : Fill) : Shape × Except String Unit :=
  match s.strokes.getLast? with
  | none => (s, .error "Shape has no strokes")
  | some stroke =>
      ({ s with strokes := setLast s.strokes { stroke with fill := f } }, .ok ())

/-- `Shape::add_stroke_gradient_stops` from `shapes.rs`: like the fill
variant, targeting the last stroke's paint. -/
def Shape.add_stroke_gradient_stops (s : Shape) (buffer : List RawStopData) :
    Shape × Except String Unit :=
  match s.strokes.getLast? with
  | none => (s, .error "Shape has no strokes")
  | some stroke =>
    match stroke.fill with
    | Fill.LinearGradient g =>
        let fill := Fill.LinearGradient (g.add_stops buffer)
        ({ s with strokes := setLast s.strokes { stroke with fill := fill } }, .ok ())
    | Fill.RadialGradient g =>
        let fill := Fill.RadialGradient (g.add_stops buffer)
        ({ s with strokes := setLast s.strokes { stroke with fill := fill } }, .ok ())
    | _ => (s, .error "Active stroke is not a gradient")

/-- `Shape::set_path_segments` from `shapes.rs`: decode the buffer via
`Path::try_from` (the `?` propagates the parse error before any mutation),
then install the path, keeping the `Bool` operator if present. -/
def Shape.set_path_segments (s : Shape) (buffer : List RawPathData) :
    Shape × Except String Unit :=
  match Path.tryFrom buffer with
  | .error e => (s, .error e)
  | .ok p =>
    let kind :=
      match s.kind with
      | Kind.Bool bool_type _ => Kind.Bool bool_type p
      | _ => Kind.Path p
    ({ s with kind := kind }, .ok ())

/-- `Shape::set_bool_type` from `shapes.rs`: keep the path when the kind is
already `Bool`, otherwise start from the default (empty) path. -/
def Shape.set_bool_type (s : Shape) (bool_type : BoolType) : Shape :=
  let kind :=
    match s.kind with
    | Kind.Bool _ path => Kind.Bool bool_type path
    | _ => Kind.Bool bool_type Path.default
  { s with kind := kind }

/-- Modelled from the spec: `bounds()` (from the renderable adapter, not in
the shown source) returns the shape's bounds, which is `selrect` ("center
point of the shape's bounds (`selrect`)"). -/
def Shape.bounds (s : Shape) : Rect := s.selrect

/-- `Shape::to_path_transform` from `shapes.rs`: for `Path`/`Bool` kinds,
conjugate the inverse of the translation-stripped transform by the bounds
center; `None` for other kinds, and `?` propagates a failed inversion. -/
def Shape.to_path_transform (s : Shape) : Option SkMatrix :=
  match s.kind with
  | Kind.Path _ | Kind.Bool _ _ =>
    let center := s.bounds.center
    let matrix := SkMatrix.new_identity
    let matrix := matrix.pre_translate center
    match (s.transform.no_translation.to_skia_matrix).invert with
    | none => none
    | some inv =>
      let matrix := matrix.pre_concat inv
      let matrix := matrix.pre_translate (-center.1, -center.2)
      some matrix
  | _ => none

/-- `true` exactly on the `Path`/`Bool` kinds (the arm of the Rust `match`
in `to_path_transform` that computes a matrix). -/
def isPathLike : Kind → Bool
  | .Path _ => true
  | .Bool _ _ => true
  | _ => false

/-- The stop-appending loop appends the extracted `(color, offset)` pairs in
buffer order. -/
theorem Gradient.add_stops_eq (g : Gradient) (buffer : List RawStopData) :
    g.add_stops buffer = ⟨g.stops ++ buffer.map fun r => (r.color, r.offset)⟩ := by
  induction buffer generalizing g with
  | nil => simp [Gradient.add_stops]
  | cons hd tl ih =>
      rw [Gradient.add_stops, List.foldl_cons]
      rw [show List.foldl (fun g stop => Gradient.add_stop g stop.color stop.offset)
            (g.add_stop hd.color hd.offset) tl
          = (g.add_stop hd.color hd.offset).add_stops tl from rfl]
      rw [ih]
      simp [Gradient.add_stop]

/-- Replacing the last element leaves it as the (now) last element. -/
theorem getLast?_setLast {α : Type} (l : List α) (x : α) :
    (setLast l x).getLast? = some x := by
  simp [setLast]

/-- C3: `BoolType::from` is total: 0,1,2,3 decode to the four operators in
order and every other input decodes to the default `Union`. -/
theorem boolType_from_total :
    BoolType.from 0 = BoolType.Union ∧
    BoolType.from 1 = BoolType.Difference ∧
    BoolType.from 2 = BoolType.Intersection ∧
    BoolType.from 3 = BoolType.Exclusion ∧
    ∀ n : Nat, 4 ≤ n → BoolType.from n = BoolType.Union := by
  refine ⟨rfl, rfl, rfl, rfl, ?_⟩
  intro n hn
  match n, hn with
  | (k + 4), _ => rfl

/-- Witness for C3 at concrete inputs. -/
theorem boolType_from_total_witness :
    BoolType.from 3 = BoolType.Exclusion ∧ BoolType.from 200 = BoolType.Union :=
  ⟨boolType_from_total.2.2.2.1, boolType_from_total.2.2.2.2 200 (by decide)⟩

/-- C10: `Shape::new(id)` installs the documented defaults in every field:
`Rect` kind with the empty box, empty selrect, identity transform, zero
rotation, clipping on, empty child/fill/stroke lists, default blend mode,
full opacity, not hidden. -/
theorem shape_new_defaults (id : Uuid) :
    (Shape.new id).id = id ∧
    (Shape.new id).kind = Kind.Rect Rect.new_empty ∧
    (Shape.new id).selrect = Rect.new_empty ∧
    (Shape.new id).transform = Matrix.identity ∧
    (Shape.new id).rotation = 0 ∧
    (Shape.new id).clip_content = true ∧
    (Shape.new id).children = [] ∧
    (Shape.new id).fills = [] ∧
    (Shape.new id).strokes = [] ∧
    (Shape.new id).blend_mode = BlendMode.default ∧
    (Shape.new id).opacity = 1 ∧
    (Shape.new id).hidden = false :=
  ⟨rfl, rfl, rfl, rfl, rfl, rfl, rfl, rfl, rfl, rfl, rfl, rfl⟩

/-- C5: `set_bool_type(op)` keeps the existing path when the kind is already
`Bool` and only swaps the operator; on any other kind it installs
`Bool(op, empty path)`; two successive calls with different operators on a
`Bool` shape preserve the path while `kind()` reports each new operator. -/
theorem set_bool_type_spec (s : Shape) (op op1 op2 : BoolType) :
    ((∀ op0 p, s.kind ≠ Kind.Bool op0 p) →
       (s.set_bool_type op).kind = Kind.Bool op Path.default) ∧
    (∀ op0 p, s.kind = Kind.Bool op0 p →
       (s.set_bool_type op).kind = Kind.Bool op p) ∧
    (∀ op0 p, s.kind = Kind.Bool op0 p →
       (s.set_bool_type op1).kindAcc = Kind.Bool op1 p ∧
       ((s.set_bool_type op1).set_bool_type op2).kindAcc = Kind.Bool op2 p) := by
  refine ⟨?_, ?_, ?_⟩
  · intro h
    cases hk : s.kind with
    | Bool op0 p => exact absurd hk (h op0 p)
    | Rect r => simp [Shape.set_bool_type, hk]
    | Circle r => simp [Shape.set_bool_type, hk]
    | Path p => simp [Shape.set_bool_type, hk]
  · intro op0 p hk
    simp [Shape.set_bool_type, hk]
  · intro op0 p hk
    constructor
    · simp [Shape.set_bool_type, Shape.kindAcc, hk]
    · simp [Shape.set_bool_type, Shape.kindAcc, hk]

/-- Witness for C5: a shape holding a non-empty `Bool` path keeps the path
across two operator changes. -/
theorem set_bool_type_spec_witness :
    ((((Shape.new 0).set_kind
        (Kind.Bool BoolType.Union ⟨[Segment.close]⟩)).set_bool_type
        BoolType.Difference).set_bool_type BoolType.Exclusion).kindAcc
      = Kind.Bool BoolType.Exclusion ⟨[Segment.close]⟩ :=
  ((set_bool_type_spec ((Shape.new 0).set_kind
      (Kind.Bool BoolType.Union ⟨[Segment.close]⟩))
      BoolType.Union BoolType.Difference BoolType.Exclusion).2.2
    BoolType.Union ⟨[Segment.close]⟩ rfl).2

/-- C6: `set_selrect(l,t,r,b)` rewrites `selrect` to `(l,t,r,b)`; a `Rect`
or `Circle` kind gets the same box with its tag unchanged; `Path` and
`Bool` kinds are untouched. -/
theorem set_selrect_spec (s : Shape) (l t r b : Scalar) :
    (s.set_selrect l t r b).selrect = ⟨l, t, r, b⟩ ∧
    (∀ r0, s.kind = Kind.Rect r0 →
       (s.set_selrect l t r b).kind = Kind.Rect ⟨l, t, r, b⟩) ∧
    (∀ r0, s.kind = Kind.Circle r0 →
       (s.set_selrect l t r b).kind = Kind.Circle ⟨l, t, r, b⟩) ∧
    (∀ p, s.kind = Kind.Path p →
       (s.set_selrect l t r b).kind = Kind.Path p) ∧
    (∀ op p, s.kind = Kind.Bool op p →
       (s.set_selrect l t r b).kind = Kind.Bool op p) := by
  refine ⟨?_, ?_, ?_, ?_, ?_⟩
  · cases hk : s.kind <;> simp [Shape.set_selrect, Rect.set_ltrb, hk]
  · intro r0 hk; simp [Shape.set_selrect, Rect.set_ltrb, hk]
  · intro r0 hk; simp [Shape.set_selrect, Rect.set_ltrb, hk]
  · intro p hk; simp [Shape.set_selrect, Rect.set_ltrb, hk]
  · intro op p hk; simp [Shape.set_selrect, Rect.set_ltrb, hk]

/-- Witness for C6 on a concrete `Circle` shape. -/
theorem set_selrect_spec_witness :
    (((Shape.new 0).set_kind (Kind.Circle Rect.new_empty)).set_selrect
        1 2 3 4).kind = Kind.Circle ⟨1, 2, 3, 4⟩ :=
  (set_selrect_spec ((Shape.new 0).set_kind (Kind.Circle Rect.new_empty))
      1 2 3 4).2.2.1 Rect.new_empty rfl

/-- C4: `add_fill_gradient_stops` errors with the empty-fill-list condition
when there is no fill, errors with the not-a-gradient condition when the
last fill is `Solid`, and on a linear/radial gradient succeeds and appends
the buffer's stops to that gradient's stop list in order. -/
theorem add_fill_gradient_stops_spec (s : Shape) (buffer : List RawStopData) :
    (s.fills = [] →
       s.add_fill_gradient_stops buffer = (s, .error "Shape has no fills")) ∧
    (∀ c, s.fills.getLast? = some (Fill.Solid c) →
       s.add_fill_gradient_stops buffer =
         (s, .error "Active fill is not a gradient")) ∧
    (∀ g, s.fills.getLast? = some (Fill.LinearGradient g) →
       s.add_fill_gradient_stops buffer =
         ({ s with fills := setLast s.fills (Fill.LinearGradient
              ⟨g.stops ++ buffer.map fun r => (r.color, r.offset)⟩) }, .ok ())) ∧
    (∀ g, s.fills.getLast? = some (Fill.RadialGradient g) →
       s.add_fill_gradient_stops buffer =
         ({ s with fills := setLast s.fills (Fill.RadialGradient
              ⟨g.stops ++ buffer.map fun r => (r.color, r.offset)⟩) }, .ok ())) := by
  refine ⟨?_, ?_, ?_, ?_⟩
  · intro h
    simp [Shape.add_fill_gradient_stops, h]
  · intro c h
    simp [Shape.add_fill_gradient_stops, h]
  · intro g h
    simp [Shape.add_fill_gradient_stops, h, Gradient.add_stops_eq]
  · intro g h
    simp [Shape.add_fill_gradient_stops, h, Gradient.add_stops_eq]

/-- Witness for C4: appending two stops to a one-stop linear gradient keeps
the supplied order. -/
theorem add_fill_gradient_stops_spec_witness :
    ((Shape.new 0).add_fill (Fill.LinearGradient ⟨[(9, 0)]⟩)).add_fill_gradient_stops
        [⟨1, 1/2⟩, ⟨2, 1⟩]
      = ({ (Shape.new 0).add_fill (Fill.LinearGradient ⟨[(9, 0)]⟩) with
            fills := [Fill.LinearGradient ⟨[(9, 0), (1, 1/2), (2, 1)]⟩] }, .ok ()) :=
  (add_fill_gradient_stops_spec
      ((Shape.new 0).add_fill (Fill.LinearGradient ⟨[(9, 0)]⟩))
      [⟨1, 1/2⟩, ⟨2, 1⟩]).2.2.1 ⟨[(9, 0)]⟩ rfl

/-- C8: `set_stroke_fill` errors when the stroke list is empty and otherwise
replaces only the last stroke's fill; `add_stroke_gradient_stops` mirrors
the fill-variant contract, targeting the last stroke's paint. -/
theorem stroke_last_ops_spec (s : Shape) (f : Fill) (buffer : List RawStopData) :
    (s.strokes = [] →
       s.set_stroke_fill f = (s, .error "Shape has no strokes") ∧
       s.add_stroke_gradient_stops buffer = (s, .error "Shape has no strokes")) ∧
    (∀ st, s.strokes.getLast? = some st →
       s.set_stroke_fill f =
         ({ s with strokes := setLast s.strokes { st with fill := f } }, .ok ()) ∧
       (s.set_stroke_fill f).1.strokes.dropLast = s.strokes.dropLast) ∧
    (∀ st c, s.strokes.getLast? = some st → st.fill = Fill.Solid c →
       s.add_stroke_gradient_stops buffer =
         (s, .error "Active stroke is not a gradient")) ∧
    (∀ st g, s.strokes.getLast? = some st → st.fill = Fill.LinearGradient g →
       s.add_stroke_gradient_stops buffer =
         ({ s with strokes := setLast s.strokes ⟨Fill.LinearGradient
              ⟨g.stops ++ buffer.map fun r => (r.color, r.offset)⟩, st.width⟩ }, .ok ())) ∧
    (∀ st g, s.strokes.getLast? = some st → st.fill = Fill.RadialGradient g →
       s.add_stroke_gradient_stops buffer =
         ({ s with strokes := setLast s.strokes ⟨Fill.RadialGradient
              ⟨g.stops ++ buffer.map fun r => (r.color, r.offset)⟩, st.width⟩ }, .ok ())) := by
  refine ⟨?_, ?_, ?_, ?_, ?_⟩
  · intro h
    constructor
    · simp [Shape.set_stroke_fill, h]
    · simp [Shape.add_stroke_gradient_stops, h]
  · intro st h
    constructor
    · simp [Shape.set_stroke_fill, h]
    · simp [Shape.set_stroke_fill, h, setLast]
  · intro st c h hf
    simp [Shape.add_stroke_gradient_stops, h, hf]
  · intro st g h hf
    simp [Shape.add_stroke_gradient_stops, h, hf, Gradient.add_stops_eq]
  · intro st g h hf
    simp [Shape.add_stroke_gradient_stops, h, hf, Gradient.add_stops_eq]

/-- Witness for C8: replacing the fill of the last of two strokes leaves the
first stroke unchanged. -/
theorem stroke_last_ops_spec_witness :
    (((Shape.new 0).add_stroke ⟨Fill.Solid 5, 1⟩).add_stroke
        ⟨Fill.Solid 6, 2⟩).set_stroke_fill (Fill.Solid 7)
      = ({ ((Shape.new 0).add_stroke ⟨Fill.Solid 5, 1⟩).add_stroke
             ⟨Fill.Solid 6, 2⟩ with
           strokes := [⟨Fill.Solid 5, 1⟩, ⟨Fill.Solid 7, 2⟩] }, .ok ()) :=
  ((stroke_last_ops_spec
      (((Shape.new 0).add_stroke ⟨Fill.Solid 5, 1⟩).add_stroke ⟨Fill.Solid 6, 2⟩)
      (Fill.Solid 7) []).2.1 ⟨Fill.Solid 6, 2⟩ rfl).1

/-- C2: `set_path_segments` either decodes the whole buffer and installs the
path — keeping the `Bool` operator when present, otherwise becoming `Path`
— or propagates the parse error and leaves the shape unchanged. -/
theorem set_path_segments_spec (s : Shape) (buffer : List RawPathData) :
    (∀ e, Path.tryFrom buffer = .error e →
       s.set_path_segments buffer = (s, .error e)) ∧
    (∀ p, Path.tryFrom buffer = .ok p →
       (∀ op q, s.kind = Kind.Bool op q →
          s.set_path_segments buffer = ({ s with kind := Kind.Bool op p }, .ok ())) ∧
       ((∀ op q, s.kind ≠ Kind.Bool op q) →
          s.set_path_segments buffer = ({ s with kind := Kind.Path p }, .ok ()))) := by
  constructor
  · intro e he
    simp [Shape.set_path_segments, he]
  · intro p hp
    constructor
    · intro op q hk
      simp [Shape.set_path_segments, hp, hk]
    · intro h
      cases hk : s.kind with
      | Bool op q => exact absurd hk (h op q)
      | Rect r => simp [Shape.set_path_segments, hp, hk]
      | Circle r => simp [Shape.set_path_segments, hp, hk]
      | Path q => simp [Shape.set_path_segments, hp, hk]

/-- Witness for C2: a malformed record (tag 9) fails the whole decode and
leaves a `Bool` shape untouched; a well-formed buffer replaces the path and
keeps the operator. -/
theorem set_path_segments_spec_witness :
    ((Shape.new 0).set_kind (Kind.Bool BoolType.Difference ⟨[Segment.close]⟩)).set_path_segments
        [⟨9, (0, 0), (0, 0), (0, 0)⟩]
      = ((Shape.new 0).set_kind (Kind.Bool BoolType.Difference ⟨[Segment.close]⟩),
         .error "Invalid path data") ∧
    ((Shape.new 0).set_kind (Kind.Bool BoolType.Difference ⟨[Segment.close]⟩)).set_path_segments
        [⟨1, (0, 0), (0, 0), (3, 4)⟩]
      = ({ (Shape.new 0).set_kind (Kind.Bool BoolType.Difference ⟨[Segment.close]⟩) with
            kind := Kind.Bool BoolType.Difference ⟨[Segment.moveTo (3, 4)]⟩ }, .ok ()) :=
  ⟨(set_path_segments_spec _ [⟨9, (0, 0), (0, 0), (0, 0)⟩]).1 "Invalid path data" rfl,
   ((set_path_segments_spec _ [⟨1, (0, 0), (0, 0), (3, 4)⟩]).2 ⟨[Segment.moveTo (3, 4)]⟩
       rfl).1 BoolType.Difference ⟨[Segment.close]⟩ rfl⟩

/-- Composing with the identity on the left is the identity of `concat`. -/
theorem SkMatrix.id_concat (m : SkMatrix) : SkMatrix.new_identity.concat m = m := by
  simp [SkMatrix.concat, SkMatrix.new_identity]

/-- C9: the gradient-stop mutators are atomic: every error is raised before
any stop is committed (the shape is unchanged on error), and once the last
fill/stroke is a gradient the append can no longer fail — every stop of the
buffer lands in the stop list. -/
theorem gradient_stops_atomic (s : Shape) (buffer : List RawStopData) :
    (∀ e, (s.add_fill_gradient_stops buffer).2 = .error e →
       (s.add_fill_gradient_stops buffer).1 = s) ∧
    (∀ e, (s.add_stroke_gradient_stops buffer).2 = .error e →
       (s.add_stroke_gradient_stops buffer).1 = s) ∧
    (∀ g, (s.fills.getLast? = some (Fill.LinearGradient g) ∨
           s.fills.getLast? = some (Fill.RadialGradient g)) →
       (s.add_fill_gradient_stops buffer).2 = .ok () ∧
       ∃ g2, ((s.add_fill_gradient_stops buffer).1.fills.getLast? =
                 some (Fill.LinearGradient g2) ∨
              (s.add_fill_gradient_stops buffer).1.fills.getLast? =
                 some (Fill.RadialGradient g2)) ∧
         g2.stops = g.stops ++ buffer.map fun r => (r.color, r.offset)) ∧
    (∀ st g, s.strokes.getLast? = some st →
       (st.fill = Fill.LinearGradient g ∨ st.fill = Fill.RadialGradient g) →
       (s.add_stroke_gradient_stops buffer).2 = .ok () ∧
       ∃ g2, (((s.add_stroke_gradient_stops buffer).1.strokes.getLast?).map
                 Stroke.fill = some (Fill.LinearGradient g2) ∨
              ((s.add_stroke_gradient_stops buffer).1.strokes.getLast?).map
                 Stroke.fill = some (Fill.RadialGradient g2)) ∧
         g2.stops = g.stops ++ buffer.map fun r => (r.color, r.offset)) := by
  refine ⟨?_, ?_, ?_, ?_⟩
  · intro e he
    cases hl : s.fills.getLast? with
    | none => simp [Shape.add_fill_gradient_stops, hl]
    | some fill =>
      cases fill with
      | Solid c => simp [Shape.add_fill_gradient_stops, hl]
      | LinearGradient g => simp [Shape.add_fill_gradient_stops, hl] at he
      | RadialGradient g => simp [Shape.add_fill_gradient_stops, hl] at he
  · intro e he
    cases hl : s.strokes.getLast? with
    | none => simp [Shape.add_stroke_gradient_stops, hl]
    | some st =>
      cases hf : st.fill with
      | Solid c => simp [Shape.add_stroke_gradient_stops, hl, hf]
      | LinearGradient g => simp [Shape.add_stroke_gradient_stops, hl, hf] at he
      | RadialGradient g => simp [Shape.add_stroke_gradient_stops, hl, hf] at he
  · intro g hg
    rcases hg with hl | hl
    · refine ⟨by simp [Shape.add_fill_gradient_stops, hl],
        ⟨g.stops ++ buffer.map fun r => (r.color, r.offset)⟩, .inl ?_, rfl⟩
      simp [Shape.add_fill_gradient_stops, hl, Gradient.add_stops_eq, getLast?_setLast]
    · refine ⟨by simp [Shape.add_fill_gradient_stops, hl],
        ⟨g.stops ++ buffer.map fun r => (r.color, r.offset)⟩, .inr ?_, rfl⟩
      simp [Shape.add_fill_gradient_stops, hl, Gradient.add_stops_eq, getLast?_setLast]
  · intro st g hl hg
    rcases hg with hf | hf
    · refine ⟨by simp [Shape.add_stroke_gradient_stops, hl, hf],
        ⟨g.stops ++ buffer.map fun r => (r.color, r.offset)⟩, .inl ?_, rfl⟩
      simp [Shape.add_stroke_gradient_stops, hl, hf, Gradient.add_stops_eq,
        getLast?_setLast]
    · refine ⟨by simp [Shape.add_stroke_gradient_stops, hl, hf],
        ⟨g.stops ++ buffer.map fun r => (r.color, r.offset)⟩, .inr ?_, rfl⟩
      simp [Shape.add_stroke_gradient_stops, hl, hf, Gradient.add_stops_eq,
        getLast?_setLast]

/-- Witness for C9: an error on a solid-fill shape leaves it unchanged, and
a gradient-fill shape takes both stops. -/
theorem gradient_stops_atomic_witness :
    (((Shape.new 0).add_fill (Fill.Solid 3)).add_fill_gradient_stops
        [⟨1, 0⟩]).1 = (Shape.new 0).add_fill (Fill.Solid 3) ∧
    (((Shape.new 0).add_fill (Fill.RadialGradient ⟨[]⟩)).add_fill_gradient_stops
        [⟨1, 0⟩, ⟨2, 1⟩]).2 = .ok () :=
  ⟨(gradient_stops_atomic ((Shape.new 0).add_fill (Fill.Solid 3)) [⟨1, 0⟩]).1
      "Active fill is not a gradient" rfl,
   ((gradient_stops_atomic ((Shape.new 0).add_fill (Fill.RadialGradient ⟨[]⟩))
      [⟨1, 0⟩, ⟨2, 1⟩]).2.2.1 ⟨[]⟩ (.inr rfl)).1⟩

/-- C1: `to_path_transform` returns a matrix exactly for `Path`/`Bool`
kinds with an invertible translation-stripped transform, and that matrix is
`translate(center) ∘ inverse(stripped transform) ∘ translate(-center)` with
`center` the midpoint of the shape's bounds; `Rect`/`Circle` give `None`,
and a singular stripped transform propagates the inversion failure. -/
theorem to_path_transform_spec (s : Shape) :
    s.to_path_transform =
      if isPathLike s.kind then
        (s.transform.no_translation.to_skia_matrix.invert).map fun inv =>
          ((SkMatrix.translate s.bounds.center).concat inv).concat
            (SkMatrix.translate (-s.bounds.center.1, -s.bounds.center.2))
      else none := by
  cases hk : s.kind with
  | Rect r => simp [Shape.to_path_transform, isPathLike, hk]
  | Circle r => simp [Shape.to_path_transform, isPathLike, hk]
  | Path p =>
    cases hi : s.transform.no_translation.to_skia_matrix.invert with
    | none => simp [Shape.to_path_transform, isPathLike, hk, hi]
    | some inv =>
      simp [Shape.to_path_transform, isPathLike, hk, hi, SkMatrix.pre_translate,
        SkMatrix.pre_concat, SkMatrix.id_concat]
  | Bool op p =>
    cases hi : s.transform.no_translation.to_skia_matrix.invert with
    | none => simp [Shape.to_path_transform, isPathLike, hk, hi]
    | some inv =>
      simp [Shape.to_path_transform, isPathLike, hk, hi, SkMatrix.pre_translate,
        SkMatrix.pre_concat, SkMatrix.id_concat]

/-- C7: for `Path`/`Bool` shapes, a pure-translation transform yields the
identity path-space matrix, and a 2× uniform scale yields a matrix fixing
the shape's own bounds center. -/
theorem to_path_transform_frames (s : Shape) (hk : isPathLike s.kind = true) :
    (s.transform.a = 1 → s.transform.b = 0 → s.transform.c = 0 →
       s.transform.d = 1 → s.to_path_transform = some SkMatrix.new_identity) ∧
    (s.transform.a = 2 → s.transform.b = 0 → s.transform.c = 0 →
       s.transform.d = 2 →
       ∃ m, s.to_path_transform = some m ∧
         m.map s.bounds.center = s.bounds.center) := by
  have hcase : (∃ p, s.kind = Kind.Path p) ∨ ∃ op p, s.kind = Kind.Bool op p := by
    cases hkind : s.kind with
    | Rect r => simp [isPathLike, hkind] at hk
    | Circle r => simp [isPathLike, hkind] at hk
    | Path p => exact .inl ⟨p, rfl⟩
    | Bool op p => exact .inr ⟨op, p, rfl⟩
  constructor
  · intro ha hb hc hd
    have hmat : s.transform.no_translation.to_skia_matrix = SkMatrix.new_identity := by
      simp [Matrix.no_translation, Matrix.to_skia_matrix, SkMatrix.new_identity,
        ha, hb, hc, hd]
    have hinv : s.transform.no_translation.to_skia_matrix.invert
        = some SkMatrix.new_identity := by
      rw [hmat]
      rw [SkMatrix.invert, if_neg (by norm_num [SkMatrix.det, SkMatrix.new_identity])]
      norm_num [SkMatrix.det, SkMatrix.new_identity]
    rcases hcase with ⟨p, hkind⟩ | ⟨op, p, hkind⟩ <;>
      · simp [Shape.to_path_transform, hkind, hinv, SkMatrix.pre_translate,
          SkMatrix.pre_concat, SkMatrix.concat, SkMatrix.translate,
          SkMatrix.new_identity]
  · intro ha hb hc hd
    have hmat : s.transform.no_translation.to_skia_matrix
        = (⟨2, 0, 0, 0, 2, 0⟩ : SkMatrix) := by
      simp [Matrix.no_translation, Matrix.to_skia_matrix, ha, hb, hc, hd]
    have hinv : s.transform.no_translation.to_skia_matrix.invert
        = some (⟨1/2, 0, 0, 0, 1/2, 0⟩ : SkMatrix) := by
      rw [hmat]
      rw [SkMatrix.invert, if_neg (by norm_num [SkMatrix.det])]
      norm_num [SkMatrix.det]
    refine ⟨((SkMatrix.translate s.bounds.center).concat
        (⟨1/2, 0, 0, 0, 1/2, 0⟩ : SkMatrix)).concat
        (SkMatrix.translate (-s.bounds.center.1, -s.bounds.center.2)), ?_, ?_⟩
    · rcases hcase with ⟨p, hkind⟩ | ⟨op, p, hkind⟩ <;>
        · simp [Shape.to_path_transform, hkind, hinv, SkMatrix.pre_translate,
            SkMatrix.pre_concat, SkMatrix.id_concat]
    · simp only [SkMatrix.concat, SkMatrix.translate, SkMatrix.map, Prod.ext_iff]
      constructor <;> ring

/-- Witness for C7: a translated path shape gets the identity frame; a 2×
scaled path shape with bounds `(0,0,10,20)` keeps its center `(5,10)`
fixed. -/
theorem to_path_transform_frames_witness :
    ((((Shape.new 0).set_kind (Kind.Path Path.default)).set_transform
        1 0 0 1 5 7).to_path_transform = some SkMatrix.new_identity) ∧
    (∃ m, (((((Shape.new 0).set_selrect 0 0 10 20).set_kind
          (Kind.Path Path.default)).set_transform 2 0 0 2 3 4).to_path_transform
        = some m) ∧
      m.map (((((Shape.new 0).set_selrect 0 0 10 20).set_kind
          (Kind.Path Path.default)).set_transform 2 0 0 2 3 4)).bounds.center
        = (((((Shape.new 0).set_selrect 0 0 10 20).set_kind
          (Kind.Path Path.default)).set_transform 2 0 0 2 3 4)).bounds.center) :=
  ⟨(to_path_transform_frames (((Shape.new 0).set_kind
      (Kind.Path Path.default)).set_transform 1 0 0 1 5 7) rfl).1 rfl rfl rfl rfl,
   (to_path_transform_frames ((((Shape.new 0).set_selrect 0 0 10 20).set_kind
      (Kind.Path Path.default)).set_transform 2 0 0 2 3 4) rfl).2 rfl rfl rfl rfl⟩

end Penpot
